import Mathlib

/-!
Shallow embedding of the Typing-tutor practice engine (src/src/main.rs).

Modelling conventions:
* Rust `HashMap<K, usize>` maps that are only ever read through
  `entry(..).or_default()` / `get(..).unwrap_or_default()` are embedded as
  total functions `K → Nat` with default value 0; `usize` is embedded as
  `Nat` and `saturating_sub` as Nat's truncated subtraction.
* The `error_stats` map of `TypingErrors` is keyed by the strings produced
  by `chars_to_key`, exactly as in the source.
* Randomness (`rand::thread_rng`) is an explicit parameter `rng : Nat → Nat`
  supplying one raw draw per generated character; `WeightedIndex::sample`
  is modelled by inverse-CDF lookup of `rng i % total_weight` (the `%`
  captures rand's contract that the uniform draw is below the weight total).
* `Practice::update` takes the pressed key as the `KeyboardEvent.key`
  string and returns `Option Practice`; `none` models the panic of
  `key.chars().next().unwrap()` on an empty key string.
* Persistence (`LocalStorage`) is external: the load result is a parameter
  of `Practice.create`, and the synchronous save in `account` has no effect
  on the in-memory state modelled here.
-/

namespace TypingTutor

/-- Rust `const ERROR_SCORE_INCR: usize = 10;` -/
def ERROR_SCORE_INCR : Nat := 10

/-- Rust `const STAT_SCORE_INCR: usize = 50;` -/
def STAT_SCORE_INCR : Nat := 50

/-- Rust `fn chars_to_key(ex: char, ty: char) -> String { format!("{ex} -> {ty}") }` -/
def chars_to_key (ex ty : Char) : String :=
  String.mk [ex, ' ', '-', '>', ' ', ty]

/-- Rust `str::starts_with::<char>`: the string's first character is `c`. -/
def startsWithChar (s : String) (c : Char) : Bool :=
  s.data.head? == some c

/-- Rust `struct TypingErrors { error_score: HashMap<char, usize>, error_stats: HashMap<String, usize> }`
with the maps embedded as total functions defaulting to 0. -/
structure TypingErrors where
  error_score : Char → Nat
  error_stats : String → Nat

/-- Rust `Default` derive: both maps empty, i.e. every lookup yields 0. -/
def TypingErrors.default : TypingErrors :=
  { error_score := fun _ => 0, error_stats := fun _ => 0 }

/-- Rust `TypingErrors::account(expected_c, typed_char)` (src/src/main.rs lines 28-47).
Correct keystroke: `saturating_sub(1)` on `error_score[expected_c]` and on every
`error_stats` entry whose key starts with `expected_c`. Incorrect: `+ ERROR_SCORE_INCR`
on `error_score[expected_c]`, `+ 1` on `error_score[typed_char]`, `+ STAT_SCORE_INCR`
on `error_stats[chars_to_key expected_c typed_char]`. -/
def TypingErrors.account (m : TypingErrors) (expected_c typed_char : Char) : TypingErrors :=
  if expected_c = typed_char then
    { error_score := fun c =>
        if c = expected_c then m.error_score c - 1 else m.error_score c,
      error_stats := fun k =>
        if startsWithChar k expected_c then m.error_stats k - 1 else m.error_stats k }
  else
    { error_score := fun c =>
        if c = expected_c then m.error_score c + ERROR_SCORE_INCR
        else if c = typed_char then m.error_score c + 1
        else m.error_score c,
      error_stats := fun k =>
        if k = chars_to_key expected_c typed_char then m.error_stats k + STAT_SCORE_INCR
        else m.error_stats k }

/-- Rust `fn default_symbols() -> Vec<char> { (0x21..=0x7e_u8).map(|b| b as char).collect() }` -/
def default_symbols : List Char :=
  (List.range 94).map (fun i => Char.ofNat (0x21 + i))

/-- Rust `fn div_ceil(divident: usize, divisor: usize) -> usize { (divident + (divisor - 1)) / divisor }` -/
def div_ceil (divident divisor : Nat) : Nat :=
  (divident + (divisor - 1)) / divisor

/-- The per-character sampling weight computed inside `generate_random_str`:
`div_ceil(stats.error_score.get(c).copied().unwrap_or_default(), ERROR_SCORE_INCR) + 1`. -/
def weight (stats : TypingErrors) (c : Char) : Nat :=
  div_ceil (stats.error_score c) ERROR_SCORE_INCR + 1

/-- Model of `rand::distributions::WeightedIndex::sample`: inverse-CDF lookup of
the raw draw `r` in the cumulative weights; valid whenever `r < weights.sum`. -/
def weightedIndexSample : List Nat → Nat → Nat
  | [], _ => 0
  | w :: ws, r => if r < w then 0 else weightedIndexSample ws (r - w) + 1

/-- Rust `fn generate_random_str(stats: &TypingErrors) -> String` (lines 198-207):
50 independent weighted draws from `default_symbols`. `rng i` is the raw
randomness for draw `i`; taking it `% weights.sum` models the uniform draw
in `[0, total_weight)` performed by `WeightedIndex`. -/
def generate_random_str (stats : TypingErrors) (rng : Nat → Nat) : List Char :=
  let chars := default_symbols
  let weights := chars.map (weight stats)
  (List.range 50).map (fun i => chars.getD (weightedIndexSample weights (rng i % weights.sum)) ' ')

/-- Errors of the external `gloo_storage::LocalStorage::get`: the key may be
absent, or the stored record may fail to deserialize. -/
inductive StorageError where
  | keyNotFound
  | parseFailure

/-- Model of `LocalStorage::get(ERROR_STORAGE_KEY).unwrap_or_default()` (line 106). -/
def loadStats (r : Except StorageError TypingErrors) : TypingErrors :=
  match r with
  | .ok v => v
  | .error _ => TypingErrors.default

/-- Rust `struct Practice` (lines 14-20); `expected_chars` is a `HashSet<char>`
modelled by the list it is collected from (only membership is used). -/
structure Practice where
  prompt : List Char
  correctness : List Bool
  expected_chars : List Char
  mistyped : List (Char × Char)
  error_stats : TypingErrors

/-- Rust `Practice::create` (lines 95-115), with the storage load result passed in. -/
def Practice.create (load : Except StorageError TypingErrors) (rng : Nat → Nat) : Practice :=
  let stats := loadStats load
  { prompt := generate_random_str stats rng
    correctness := []
    expected_chars := default_symbols
    mistyped := []
    error_stats := stats }

/-- The round-complete condition used by the view and the Enter guard:
`self.correctness.len() == self.prompt.chars().count()`. -/
def Practice.isComplete (s : Practice) : Prop :=
  s.correctness.length = s.prompt.length

/-- Rust `Practice::update` on a `Msg::KeyPress` (lines 140-186). The match arms are
modelled in source order: Backspace; Enter when complete; otherwise decompose
the key string (`none` models the `unwrap` panic on an empty key), ignore
multi-character keys and characters outside `expected_chars`, and classify
against `prompt[correctness.len()]` when it exists. -/
def Practice.update (s : Practice) (key : String) (rng : Nat → Nat) : Option Practice :=
  if key = "Backspace" then
    some { s with correctness := s.correctness.dropLast }
  else if key = "Enter" ∧ s.prompt.length = s.correctness.length then
    some { s with prompt := generate_random_str s.error_stats rng, correctness := [] }
  else
    match key.data with
    | [] => none
    | c :: rest =>
      if rest ≠ [] then some s
      else if c ∉ s.expected_chars then some s
      else
        match s.prompt.get? s.correctness.length with
        | none => some s
        | some expected_c =>
          let correct : Bool := expected_c == c
          let s1 : Practice :=
            { s with
              correctness := s.correctness ++ [correct]
              error_stats := s.error_stats.account expected_c c }
          if correct then some s1
          else
            let q := s1.mistyped ++ [(expected_c, c)]
            some { s1 with mistyped := if q.length > 10 then q.tail else q }

/-- The sampling weight as the spec words it: ceiling division of the score by
`ERROR_SCORE_INCR`, plus one (`⌈/⌉` is Mathlib's ceiling division on `ℕ`). -/
def weight_spec (stats : TypingErrors) (c : Char) : Nat :=
  stats.error_score c ⌈/⌉ ERROR_SCORE_INCR + 1

/-- The model obtained from the empty model by accounting the mistake
`('a','b')` ten times and then the correct keystroke `('a','a')` ten times. -/
def c1_model : TypingErrors :=
  (fun m => TypingErrors.account m 'a' 'a')^[10]
    ((fun m => TypingErrors.account m 'a' 'b')^[10] TypingErrors.default)

/-- A concrete completed session: one-character prompt, one correctness entry. -/
def c2_state : Practice :=
  { prompt := ['a']
    correctness := [true]
    expected_chars := default_symbols
    mistyped := []
    error_stats := TypingErrors.default }

/-- A concrete in-progress session: one-character prompt, empty correctness. -/
def c10_state : Practice :=
  { prompt := ['a']
    correctness := []
    expected_chars := default_symbols
    mistyped := []
    error_stats := TypingErrors.default }

/-- A concrete session with one correctness entry and a two-character prompt. -/
def c7_state : Practice :=
  { prompt := ['a', 'b']
    correctness := [true]
    expected_chars := default_symbols
    mistyped := []
    error_stats := TypingErrors.default }

/-- State `c7_state` after a Backspace. -/
def c7_state2 : Practice :=
  { c7_state with correctness := [] }

/-- A concrete fresh session about to receive its first keystroke. -/
def c8_state : Practice :=
  { prompt := ['a']
    correctness := []
    expected_chars := default_symbols
    mistyped := []
    error_stats := TypingErrors.default }

/-- State `c8_state` after mistyping `'a'` as `'b'`. -/
def c8_state2 : Practice :=
  { prompt := ['a']
    correctness := [false]
    expected_chars := default_symbols
    mistyped := [('a', 'b')]
    error_stats := TypingErrors.default.account 'a' 'b' }

lemma startsWithChar_chars_to_key (e t c : Char) :
    startsWithChar (chars_to_key e t) c = (e == c) := rfl

lemma chars_to_key_inj {a b c d : Char} :
    chars_to_key a b = chars_to_key c d ↔ a = c ∧ b = d := by
  simp [chars_to_key, String.ext_iff]

lemma account_correct_eq (m : TypingErrors) (c : Char) :
    m.account c c =
      { error_score := fun d => if d = c then m.error_score d - 1 else m.error_score d,
        error_stats := fun k =>
          if startsWithChar k c then m.error_stats k - 1 else m.error_stats k } := by
  simp [TypingErrors.account]

lemma account_correct_score (m : TypingErrors) (c : Char) :
    (m.account c c).error_score c = m.error_score c - 1 := by
  rw [account_correct_eq]
  simp

/-- Claim C1, counterexample: starting from the empty model, ten calls of
`account('a','b')` followed by ten calls of `account('a','a')` do NOT bring
`errorScore['a']` and `pairStats[('a','b')]` back to 0. -/
theorem c1_counterexample :
    ¬(c1_model.error_score 'a' = 0 ∧ c1_model.error_stats (chars_to_key 'a' 'b') = 0) := by
  decide

/-- Claim C1, amended: each correct keystroke decays scores by 1 (not by
`ERROR_SCORE_INCR`), so the scenario leaves the residuals
`errorScore['a'] = 10*10 - 10 = 90`, `errorScore['b'] = 10`, and
`pairStats[('a','b')] = 50*10 - 10 = 490`. -/
theorem c1_residual :
    c1_model.error_score 'a' = 90 ∧
    c1_model.error_score 'b' = 10 ∧
    c1_model.error_stats (chars_to_key 'a' 'b') = 490 := by
  decide

/-- Claim C3: for distinct characters `e` and `t`, `account e t` adds
`ERROR_SCORE_INCR` to `errorScore[e]`, 1 to `errorScore[t]`, and
`STAT_SCORE_INCR` to `pairStats[(e,t)]`, leaving every other `errorScore`
entry and every other `pairStats` entry unchanged. -/
theorem account_mistake_effect (m : TypingErrors) (e t : Char) (h : e ≠ t) :
    (m.account e t).error_score e = m.error_score e + ERROR_SCORE_INCR ∧
    (m.account e t).error_score t = m.error_score t + 1 ∧
    (m.account e t).error_stats (chars_to_key e t)
      = m.error_stats (chars_to_key e t) + STAT_SCORE_INCR ∧
    (∀ c, c ≠ e → c ≠ t → (m.account e t).error_score c = m.error_score c) ∧
    (∀ e2 t2, (e2, t2) ≠ (e, t) →
      (m.account e t).error_stats (chars_to_key e2 t2)
        = m.error_stats (chars_to_key e2 t2)) := by
  refine ⟨by simp [TypingErrors.account, h],
          by simp [TypingErrors.account, h, Ne.symm h],
          by simp [TypingErrors.account, h],
          fun c hc1 hc2 => by simp [TypingErrors.account, h, hc1, hc2],
          fun e2 t2 hne => ?_⟩
  have hk : chars_to_key e2 t2 ≠ chars_to_key e t := by
    intro hk
    obtain ⟨h1, h2⟩ := chars_to_key_inj.mp hk
    exact hne (by simp [h1, h2])
  simp [TypingErrors.account, h, hk]

/-- Claim C3 witness: instantiation at the empty model and the pair
`('a','b')`. -/
theorem account_mistake_effect_witness :
    ('a' : Char) ≠ 'b' ∧
    (TypingErrors.default.account 'a' 'b').error_score 'a'
      = TypingErrors.default.error_score 'a' + ERROR_SCORE_INCR :=
  ⟨by decide, (account_mistake_effect TypingErrors.default 'a' 'b' (by decide)).1⟩

/-- Claim C4: `account c c` never increases any `errorScore` or `pairStats`
value; after `n` repeated calls `errorScore[c]` equals the original value
minus `n` under ℕ's truncated (saturating) subtraction, hence converges to 0
and never drops below it; and every `pairStats` entry whose expected side is
`c` is decremented with saturation at 0 while the others are untouched. -/
theorem account_correct_effect (m : TypingErrors) (c : Char) :
    (∀ d, (m.account c c).error_score d ≤ m.error_score d) ∧
    (∀ k, (m.account c c).error_stats k ≤ m.error_stats k) ∧
    (∀ n, ((fun m2 => TypingErrors.account m2 c c)^[n] m).error_score c
      = m.error_score c - n) ∧
    (∀ e t, (m.account c c).error_stats (chars_to_key e t)
      = if e = c then m.error_stats (chars_to_key e t) - 1
        else m.error_stats (chars_to_key e t)) := by
  refine ⟨?_, ?_, ?_, ?_⟩
  · intro d
    rw [account_correct_eq]
    show (if d = c then m.error_score d - 1 else m.error_score d) ≤ m.error_score d
    split <;> omega
  · intro k
    rw [account_correct_eq]
    show (if startsWithChar k c then m.error_stats k - 1 else m.error_stats k)
      ≤ m.error_stats k
    split <;> omega
  · intro n
    induction n generalizing m with
    | zero => simp
    | succ k ih =>
      rw [Function.iterate_succ_apply, ih, account_correct_score]
      omega
  · intro e t
    rw [account_correct_eq]
    show (if startsWithChar (chars_to_key e t) c then
        m.error_stats (chars_to_key e t) - 1 else m.error_stats (chars_to_key e t))
      = if e = c then m.error_stats (chars_to_key e t) - 1
        else m.error_stats (chars_to_key e t)
    rw [startsWithChar_chars_to_key]
    by_cases he : e = c
    · simp [he]
    · simp [he]

/-- Claim C5: the unnormalized sampling weight computed by prompt generation
is exactly the ceiling of `scoreFor(c) / ERROR_SCORE_INCR`, plus one; in
particular a score of 100 yields weight 11 and an untouched character yields
weight 1. -/
theorem weight_eq_weight_spec :
    (∀ stats c, weight stats c = weight_spec stats c) ∧
    weight { error_score := fun c => if c = 'a' then 100 else 0,
             error_stats := fun _ => 0 } 'a' = 11 ∧
    weight TypingErrors.default 'z' = 1 := by
  refine ⟨fun stats c => ?_, by decide, by decide⟩
  show (stats.error_score c + (ERROR_SCORE_INCR - 1)) / ERROR_SCORE_INCR + 1
    = (stats.error_score c + ERROR_SCORE_INCR - 1) / ERROR_SCORE_INCR + 1
  congr 2

/-- Claim C9: when the stored record is missing or fails to parse, the session
starts from the empty error model: every `errorScore` and every `pairStats`
lookup of the created session's model yields 0. -/
theorem load_failure_empty_model (e : StorageError) (rng : Nat → Nat) :
    (Practice.create (Except.error e) rng).error_stats.error_score = (fun _ => 0) ∧
    (Practice.create (Except.error e) rng).error_stats.error_stats = (fun _ => 0) :=
  ⟨rfl, rfl⟩

lemma weightedIndexSample_lt {ws : List Nat} {r : Nat} (h : r < ws.sum) :
    weightedIndexSample ws r < ws.length := by
  induction ws generalizing r with
  | nil => simp at h
  | cons w ws ih =>
    simp only [weightedIndexSample, List.length_cons]
    split
    · omega
    · rename_i hw
      have hr : r - w < ws.sum := by
        simp only [List.sum_cons] at h
        omega
      exact Nat.succ_lt_succ (ih hr)

lemma default_weights_sum_pos (stats : TypingErrors) :
    0 < (default_symbols.map (weight stats)).sum := by
  have h1 : weight stats '!' ∈ default_symbols.map (weight stats) :=
    List.mem_map_of_mem _ (by decide)
  have h2 : 0 < weight stats '!' := Nat.succ_pos _
  exact lt_of_lt_of_le h2 (List.single_le_sum (fun x _ => Nat.zero_le x) _ h1)

/-- Claim C6: for every model and every randomness stream, the generated
prompt has exactly 50 characters and each of them belongs to the fixed
94-character printable-ASCII alphabet `default_symbols`. -/
theorem generate_length_and_alphabet (stats : TypingErrors) (rng : Nat → Nat) :
    (generate_random_str stats rng).length = 50 ∧
    ∀ c ∈ generate_random_str stats rng, c ∈ default_symbols := by
  constructor
  · simp [generate_random_str]
  · intro c hc
    simp only [generate_random_str, List.mem_map, List.mem_range] at hc
    obtain ⟨i, _, hi⟩ := hc
    set ws := default_symbols.map (weight stats) with hws
    have hsum : 0 < ws.sum := default_weights_sum_pos stats
    have hmod : rng i % ws.sum < ws.sum := Nat.mod_lt _ hsum
    have hlt : weightedIndexSample ws (rng i % ws.sum) < ws.length :=
      weightedIndexSample_lt hmod
    have hlen : weightedIndexSample ws (rng i % ws.sum) < default_symbols.length := by
      rw [hws, List.length_map] at hlt
      exact hlt
    rw [← hi, List.getD_eq_getElem?_getD, List.getElem?_eq_getElem hlen,
      Option.getD_some]
    exact List.getElem_mem hlen

/-- Claim C6 witness: instantiation at the empty model and the all-zero
randomness stream; the first generated character is a member of the prompt
and the theorem places it in the alphabet. -/
theorem generate_length_and_alphabet_witness :
    (generate_random_str TypingErrors.default (fun _ => 0)).length = 50 ∧
    '!' ∈ default_symbols :=
  ⟨(generate_length_and_alphabet TypingErrors.default (fun _ => 0)).1,
   (generate_length_and_alphabet TypingErrors.default (fun _ => 0)).2 '!' (by decide)⟩

lemma update_fields (s : Practice) (key : String) (rng : Nat → Nat) (s2 : Practice)
    (h : Practice.update s key rng = some s2) :
    (s2.prompt = s.prompt ∨ s2.correctness = []) ∧
    (s2.correctness = s.correctness ∨ s2.correctness = s.correctness.dropLast ∨
      s2.correctness = [] ∨
      ∃ b, s2.correctness = s.correctness ++ [b] ∧
        s.correctness.length < s.prompt.length) ∧
    (s2.mistyped = s.mistyped ∨
      ∃ p, s2.mistyped =
        if (s.mistyped ++ [p]).length > 10 then (s.mistyped ++ [p]).tail
        else s.mistyped ++ [p]) := by
  simp only [Practice.update] at h
  split at h
  · injection h with h
    subst h
    exact ⟨Or.inl rfl, Or.inr (Or.inl rfl), Or.inl rfl⟩
  · split at h
    · injection h with h
      subst h
      exact ⟨Or.inr rfl, Or.inr (Or.inr (Or.inl rfl)), Or.inl rfl⟩
    · split at h
      · exact absurd h (by simp)
      · split at h
        · injection h with h
          subst h
          exact ⟨Or.inl rfl, Or.inl rfl, Or.inl rfl⟩
        · split at h
          · injection h with h
            subst h
            exact ⟨Or.inl rfl, Or.inl rfl, Or.inl rfl⟩
          · split at h
            · injection h with h
              subst h
              exact ⟨Or.inl rfl, Or.inl rfl, Or.inl rfl⟩
            · rename_i expected_c hg
              have hlt : s.correctness.length < s.prompt.length := by
                obtain ⟨hl, -⟩ := List.get?_eq_some.mp hg
                exact hl
              split at h
              · injection h with h
                subst h
                exact ⟨Or.inl rfl, Or.inr (Or.inr (Or.inr ⟨_, rfl, hlt⟩)), Or.inl rfl⟩
              · injection h with h
                subst h
                exact ⟨Or.inl rfl, Or.inr (Or.inr (Or.inr ⟨_, rfl, hlt⟩)),
                  Or.inr ⟨_, rfl⟩⟩

/-- Claim C7: the invariant `correctness.length ≤ prompt.length` holds for the
initial session state and is preserved by every keystroke transition, and the
round is complete exactly when the two lengths are equal. -/
theorem correctness_length_invariant :
    (∀ load rng, (Practice.create load rng).correctness.length
      ≤ (Practice.create load rng).prompt.length) ∧
    (∀ s key rng s2, s.correctness.length ≤ s.prompt.length →
      Practice.update s key rng = some s2 →
      s2.correctness.length ≤ s2.prompt.length) ∧
    (∀ s : Practice, s.isComplete ↔ s.correctness.length = s.prompt.length) := by
  refine ⟨fun load rng => by simp [Practice.create],
    fun s key rng s2 hinv hup => ?_, fun s => Iff.rfl⟩
  obtain ⟨hp, hc, -⟩ := update_fields s key rng s2 hup
  rcases hp with hp | hp
  · rcases hc with hc | hc | hc | ⟨b, hc, hlt⟩
    · rw [hp, hc]
      exact hinv
    · rw [hp, hc, List.length_dropLast]
      omega
    · rw [hp, hc]
      simp
    · rw [hp, hc, List.length_append]
      simp
      omega
  · rw [hp]
    simp

/-- Claim C7 witness: instantiation at a concrete session satisfying the
invariant, hit with a Backspace. -/
theorem correctness_length_invariant_witness :
    c7_state.correctness.length ≤ c7_state.prompt.length ∧
    c7_state2.correctness.length ≤ c7_state2.prompt.length :=
  ⟨by decide,
   correctness_length_invariant.2.1 c7_state "Backspace" (fun _ => 0) c7_state2
     (by decide) rfl⟩

/-- Claim C8: the recent-mistakes queue starts empty, a transition never grows
it beyond 10 entries, and when it already holds 10 entries a recorded mistake
evicts the oldest entry: the new queue is the old tail with the new pair
appended (insertion order preserved). -/
theorem mistyped_bounded :
    (∀ load rng, (Practice.create load rng).mistyped.length = 0) ∧
    (∀ s key rng s2, Practice.update s key rng = some s2 →
      s.mistyped.length ≤ 10 → s2.mistyped.length ≤ 10) ∧
    (∀ s key rng s2, Practice.update s key rng = some s2 →
      s.mistyped.length = 10 →
      s2.mistyped = s.mistyped ∨ ∃ p, s2.mistyped = s.mistyped.tail ++ [p]) := by
  refine ⟨fun load rng => rfl, ?_, ?_⟩
  · intro s key rng s2 hup hb
    obtain ⟨-, -, hm⟩ := update_fields s key rng s2 hup
    rcases hm with hm | ⟨p, hm⟩
    · rw [hm]
      exact hb
    · rw [hm]
      split
      · simp only [List.length_tail, List.length_append, List.length_singleton]
        omega
      · omega
  · intro s key rng s2 hup h10
    obtain ⟨-, -, hm⟩ := update_fields s key rng s2 hup
    rcases hm with hm | ⟨p, hm⟩
    · exact Or.inl hm
    · refine Or.inr ⟨p, ?_⟩
      rw [hm, if_pos (by simp [List.length_append, h10])]
      have hne : s.mistyped ≠ [] := by
        intro hnil
        rw [hnil] at h10
        simp at h10
      exact List.tail_append_singleton_of_ne_nil hne

/-- Claim C8 witness: instantiation at a concrete fresh session that records
its first mistake. -/
theorem mistyped_bounded_witness :
    Practice.update c8_state "b" (fun _ => 0) = some c8_state2 ∧
    c8_state2.mistyped.length ≤ 10 :=
  ⟨rfl, mistyped_bounded.2.1 c8_state "b" (fun _ => 0) c8_state2 rfl (by decide)⟩

/-- Claim C2, counterexample: in a completed round, Backspace is not a no-op:
it removes the last correctness entry, so the session state changes. -/
theorem complete_backspace_not_noop :
    c2_state.correctness.length = c2_state.prompt.length ∧
    (Practice.update c2_state "Backspace" (fun _ => 0)).map Practice.correctness
      ≠ some c2_state.correctness := by
  decide

/-- Claim C2, amended: in a completed round, every nonempty key other than
Enter and Backspace leaves the session state unchanged, while Backspace
(whose branch is checked before the completeness test) removes the last
correctness entry. -/
theorem complete_non_enter_behaviour (s : Practice) (key : String) (rng : Nat → Nat)
    (hc : s.correctness.length = s.prompt.length)
    (h1 : key ≠ "Enter") (h2 : key ≠ "Backspace") (h3 : key ≠ "") :
    Practice.update s key rng = some s ∧
    Practice.update s "Backspace" rng
      = some { s with correctness := s.correctness.dropLast } := by
  constructor
  · unfold Practice.update
    rw [if_neg h2,
      if_neg (show ¬(key = "Enter" ∧ s.prompt.length = s.correctness.length) from
        fun hco => h1 hco.1)]
    split
    · rename_i heq
      exact absurd (String.ext heq) h3
    · split
      · rfl
      · split
        · rfl
        · rw [List.get?_eq_none.mpr (le_of_eq hc.symm)]
  · simp [Practice.update]

/-- Claim C2 witness for the amended statement: a concrete completed session
is unchanged by the key `"x"`. -/
theorem complete_non_enter_behaviour_witness :
    c2_state.correctness.length = c2_state.prompt.length ∧
    Practice.update c2_state "x" (fun _ => 0) = some c2_state :=
  ⟨by decide,
   (complete_non_enter_behaviour c2_state "x" (fun _ => 0) (by decide) (by decide)
     (by decide) (by decide)).1⟩

/-- Claim C10: pressing Enter while the round is still in progress is ignored:
the whole session state is unchanged (the Enter transition only fires when the
round is complete, and the multi-character key `"Enter"` is dropped by the
classification arm). -/
theorem enter_in_progress_noop (s : Practice) (rng : Nat → Nat)
    (h : s.correctness.length < s.prompt.length) :
    Practice.update s "Enter" rng = some s := by
  unfold Practice.update
  rw [if_neg (by decide : ¬("Enter" : String) = "Backspace"),
    if_neg (show ¬(("Enter" : String) = "Enter" ∧ s.prompt.length = s.correctness.length)
      from fun hco => by omega)]
  rfl

/-- Claim C10 witness: instantiation at a concrete in-progress session. -/
theorem enter_in_progress_noop_witness :
    c10_state.correctness.length < c10_state.prompt.length ∧
    Practice.update c10_state "Enter" (fun _ => 0) = some c10_state :=
  ⟨by decide, enter_in_progress_noop c10_state (fun _ => 0) (by decide)⟩

end TypingTutor
